import Mathlib

/-!
Verification of the deployment-lifecycle orchestrator of the bot-deployer
backend (src/backend/index.js) against its natural-language specification.

The backend is a small express server keeping an in-memory `Map` called
`processes` from deployment id to a mutable record
`{process, status, repoUrl, deployPath, repoName, runCmd, buildCmd, env}`.
Four handlers mutate it: POST /api/deploy (async clone/build/run chain),
GET /api/bots, POST /api/stop/:id, POST /api/restart/:id, plus the
`close` callbacks the deploy and restart handlers attach to spawned
child processes.

The embedding below is a faithful translation of that code:
* string manipulation is modelled over `List Char` (JavaScript
  `split`, first-occurrence `replace`, the char-class regex of
  `sanitize`, ASCII `toLowerCase` on the ASCII-only intermediate);
* the process table is an insertion-ordered association list with
  JavaScript `Map.get` / `Map.set` semantics;
* `Math.random()` is modelled by its exact output set: JavaScript
  engines return a double `k / 2 ^ 53` with `k < 2 ^ 53`, every such
  value being exactly representable, so the drawn numerator `k` is the
  external input and `Math.floor(k / 2 ^ 53 * (65535 - 10000) + 10000)`
  is the exact natural-number expression `k * (65535 - 10000) / 2 ^ 53
  + 10000` (the trailing integer addend commutes with `floor`);
* the asynchronous callbacks (`close` events) and the HTTP commands are
  the events of a small labelled transition system over the server
  state; child stdout/stderr payloads are external and not modelled,
  the log lines emitted by the handlers themselves are.
-/

namespace BotDeployer

/-! ## JavaScript string primitives, over `List Char` -/

/-- JavaScript `str.split(sep)` for a one-character separator, as in
`repoUrl.split("/")` (index.js line 43) and `proxy.split("@")`
(line 73): JavaScript `split` always returns a non-empty array, with
empty strings for leading/trailing/adjacent separators. -/
def splitChar (sep : Char) : List Char → List (List Char)
  | [] => [[]]
  | c :: t =>
    if c = sep then [] :: splitChar sep t
    else
      match splitChar sep t with
      | [] => [[c]]
      | h :: r => (c :: h) :: r

/-- JavaScript `arr.pop()` on the non-empty result of a `split`: the
last element. -/
def jsLastSegment (l : List Char) : List Char := (splitChar '/' l).getLastD []

/-- JavaScript `str.replace(pat, repl)` with a plain (non-regex,
non-empty) string
pattern: JavaScript replaces only the FIRST occurrence of `pat`, or
returns the string unchanged when `pat` does not occur. -/
def replaceFirst (pat repl : List Char) : List Char → List Char
  | [] => []
  | c :: t =>
    if pat.isPrefixOf (c :: t) then repl ++ (c :: t).drop pat.length
    else c :: replaceFirst pat repl t

/-- Line 43 of index.js: `repoUrl.split("/").pop().replace(".git", "")`. -/
def repoNameOf (repoUrl : String) : String :=
  ⟨replaceFirst ".git".data [] (jsLastSegment repoUrl.data)⟩

/-- The character class `[a-z0-9]` with the `i` flag: ASCII letters of
either case and ASCII digits, by code point. -/
def isAlnumCI (c : Char) : Bool :=
  (97 ≤ c.toNat && c.toNat ≤ 122) ||
  (65 ≤ c.toNat && c.toNat ≤ 90) ||
  (48 ≤ c.toNat && c.toNat ≤ 57)

/-- One character of `name.replace(/[^a-z0-9]/gi, "_")`: the `g` flag
makes the regex replacement character-wise. -/
def replaceNonAlnum (c : Char) : Char := if isAlnumCI c then c else '_'

/-- JavaScript `String.prototype.toLowerCase` on one character. In
index.js the
input has already passed `replaceNonAlnum`, so it is ASCII `[a-zA-Z0-9_]`,
where Unicode lower-casing is exactly the ASCII map `A-Z ↦ a-z`. -/
def asciiLower (c : Char) : Char :=
  if 65 ≤ c.toNat && c.toNat ≤ 90 then Char.ofNat (c.toNat + 32) else c

/-- Line 38 of index.js:
`const sanitize = (name) => name.replace(/[^a-z0-9]/gi, "_").toLowerCase()`.
(index.js line 38). Both stages are character-wise, so the composition
is a single character-wise map. -/
def sanitize (name : String) : String :=
  ⟨name.data.map (fun c => asciiLower (replaceNonAlnum c))⟩

/-! ## Environment objects -/

/-- A JavaScript object used as an environment: insertion-ordered
key/value pairs (`process.env`, the request `envVars`, the merged
`botEnv`). -/
abbrev Env := List (String × String)

/-- Property read `obj[k]`: the binding of `k`, if any. -/
def envGet (e : Env) (k : String) : Option String :=
  match e with
  | [] => none
  | (k', v) :: t => if k' = k then some v else envGet t k

/-- Property write `obj[k] = v`: overwrite in place, or append a new key. -/
def envSet (e : Env) (k v : String) : Env :=
  match e with
  | [] => [(k, v)]
  | (k', v') :: t => if k' = k then (k', v) :: t else (k', v') :: envSet t k v

/-- Spread merge `{ ...base, ...overrides }`: later keys override. -/
def envMerge (base overrides : Env) : Env :=
  overrides.foldl (fun acc kv => envSet acc kv.1 kv.2) base

/-- JavaScript truthiness of a possibly-absent string property:
`undefined` and the empty string are falsy, every other string truthy
(used by `if (!envVars.PORT)`, `if (buildCmd)`, `if (proxy)`). -/
def jsTruthy : Option String → Bool
  | none => false
  | some v => !(v = "")

/-- Line 67 of index.js:
`Math.floor(Math.random() * (65535 - 10000) + 10000)`,
with `Math.random()` modelled by its drawn numerator `k`
standing for the double `k / 2 ^ 53`, `k < 2 ^ 53`. The computation is
done in exact arithmetic: `floor(k / 2 ^ 53 * (65535 - 10000) + 10000)
= k * (65535 - 10000) / 2 ^ 53 + 10000` in natural numbers. (Double
rounding of the product can perturb the floor near integer boundaries
but never moves it out of `[10000, 65535)`, the only property used.) -/
def randomPort (k : Nat) : Nat := k * (65535 - 10000) / 2 ^ 53 + 10000

/-- Lines 65-74 of index.js: `botEnv = { ...process.env, ...envVars }`,
then PORT injection when `envVars.PORT` is falsy, then the proxy
variable when `proxy` is truthy. -/
def computeBotEnv (ambient envVars : Env) (proxy : Option String) (k : Nat) : Env :=
  let base := envMerge ambient envVars
  let base :=
    if jsTruthy (envGet envVars "PORT") then base
    else envSet base "PORT" (toString (randomPort k))
  match proxy with
  | some p => if p = "" then base else envSet base "SOCKS_PROXY" p
  | none => base

/-! ## The deployment record store -/

/-- One value of the `processes` map (index.js lines 82-91): the record
a deployment id is bound to. `process` is the handle of the currently
attached child process, named by the `Nat` the supervisor issued for it;
the code always stores a handle, `Option` mirrors the `botData.process`
truthiness test in the stop handler. -/
structure BotRecord where
  process : Option Nat
  status : String
  repoUrl : String
  deployPath : String
  repoName : String
  runCmd : String
  buildCmd : Option String
  env : Env
deriving DecidableEq

/-- The global `const processes = new Map()` (index.js line 35):
insertion-ordered association list. -/
abbrev ProcMap := List (String × BotRecord)

/-- Lookup `processes.get(id)` (also backs `processes.has(id)`). -/
def mapGet (m : ProcMap) (id : String) : Option BotRecord :=
  match m with
  | [] => none
  | (k, v) :: t => if k = id then some v else mapGet t id

/-- Insertion `processes.set(id, rec)`, and in-place mutation of a
stored record
(`processes.get(id).status = ...`): replace the binding, or append. -/
def mapSet (m : ProcMap) (id : String) (r : BotRecord) : ProcMap :=
  match m with
  | [] => [(id, r)]
  | (k, v) :: t => if k = id then (k, r) :: t else (k, v) :: mapSet t id r

/-! ## Server state -/

/-- The mutable server state: the `processes` map, a fresh-handle
counter for the process supervisor, the sequence of log lines the
handlers have emitted through `io.emit` of tagged log events (oldest
first), and the set of `(deployment id, handle)` pairs on which a
`close` callback has been registered by `botProcess.on` for `close`. -/
structure SysState where
  processes : ProcMap
  nextHandle : Nat
  log : List (String × String)
  spawned : List (String × Nat)
deriving DecidableEq

/-- Broadcast of one tagged log line through `io.emit`. -/
def logLine (s : SysState) (id text : String) : SysState :=
  { s with log := s.log ++ [(id, text)] }

/-- Server start: empty map, nothing spawned, nothing logged. -/
def initState : SysState :=
  { processes := [], nextHandle := 0, log := [], spawned := [] }

/-! ## POST /api/deploy -/

/-- The request body destructured on index.js line 41; any of the five
properties may be absent (`undefined`). -/
structure DeployReq where
  repoUrl : Option String
  buildCmd : Option String
  runCmd : Option String
  envVars : Option Env
  proxy : Option String
deriving DecidableEq

/-- Outcomes of the external collaborators consumed by one deploy:
whether `simpleGit().clone` succeeded, the message of its error when it
failed, and the `Math.random()` draw (numerator of `k / 2 ^ 53`) used
for the PORT injection. -/
structure DeployExt where
  cloneOk : Bool
  cloneErrMsg : String
  rand : Nat
deriving DecidableEq

/-- The only response the deploy handler ever sends: the immediate
`202` acceptance carrying the id and the status string "cloning" of
index.js line 47. (There is no
validation branch and no error response in the handler.) -/
inductive DeployResp
  | accepted (id : String) (status : String)
deriving DecidableEq

/-- The observable result of running the whole deploy handler:
the response (none when the handler threw synchronously before
responding), the intermediate states at each point of the asynchronous
chain after the response and before any record insertion, and the final
state. -/
structure DeployRun where
  response : Option DeployResp
  phases : List SysState
  finalState : SysState
deriving DecidableEq

/-- Template-literal rendering of a possibly-undefined string. -/
def jsTemplate : Option String → String
  | none => "undefined"
  | some v => v

/-- The async handler of POST /api/deploy (index.js lines 40-107) run to
completion, as a function of the request, the fresh uuid `id`, the
ambient `process.env` and the external outcomes.

Control flow mirrored from the source:
* line 43: `repoUrl.split(...)` throws a TypeError when `repoUrl` is
  absent, before the `try` and before any response — nothing happens;
* line 47: respond `202 (id, cloning)`;
* line 49: log the cloning line; line 50: await the clone — on failure
  the `catch` (lines 103-106) logs the error message and the chain ends;
* lines 54-60: when `buildCmd` is truthy, log the build line and await
  the build child (its exit code is not inspected; its output chunks
  are external and not modelled);
* line 62: log the starting line (template literal, so an absent
  `runCmd` renders as "undefined");
* line 66: `envVars.PORT` throws a TypeError when `envVars` is absent —
  caught, logged, chain ends (the modelled message elides the quote
  characters of the Node wording);
* lines 71-74: proxy injection and its log line (host part after `@`);
* line 76: `spawn(runCmd, ...)` throws synchronously when `runCmd` is
  absent — caught, logged, chain ends before the record insertion;
* lines 82-101: insert the record with status "running" and the fresh
  handle, and register the close callback for `(id, handle)`. -/
def deployHandler (id : String) (req : DeployReq) (ambient : Env)
    (ext : DeployExt) (s : SysState) : DeployRun :=
  match req.repoUrl with
  | none => ⟨none, [], s⟩
  | some url =>
    let repoName := repoNameOf url
    let deployPath := "deployments/" ++ sanitize repoName ++ "_" ++ id
    let s1 := logLine s id ("Cloning " ++ url ++ "...")
    if ext.cloneOk = false then
      ⟨some (.accepted id "cloning"), [s1, logLine s1 id ("Error: " ++ ext.cloneErrMsg)],
        logLine s1 id ("Error: " ++ ext.cloneErrMsg)⟩
    else
      let s2 := logLine s1 id "Clone complete."
      let s3 :=
        if jsTruthy req.buildCmd then
          logLine s2 id ("Running build: " ++ jsTemplate req.buildCmd)
        else s2
      let s4 := logLine s3 id ("Starting bot: " ++ jsTemplate req.runCmd)
      match req.envVars with
      | none =>
        let sE := logLine s4 id "Error: Cannot read properties of undefined (reading PORT)"
        ⟨some (.accepted id "cloning"), [s1, s2, s3, s4, sE], sE⟩
      | some ev =>
        let env := computeBotEnv ambient ev req.proxy ext.rand
        let s5 :=
          match req.proxy with
          | some p =>
            if p = "" then s4
            else logLine s4 id ("Routing through proxy: " ++ ⟨(splitChar '@' p.data).getLastD []⟩)
          | none => s4
        match req.runCmd with
        | none =>
          let sE := logLine s5 id "Error: The file argument must be of type string. Received undefined"
          ⟨some (.accepted id "cloning"), [s1, s2, s3, s4, s5, sE], sE⟩
        | some rc =>
          let h := s5.nextHandle
          let record : BotRecord :=
            { process := some h, status := "running", repoUrl := url,
              deployPath := deployPath, repoName := repoName,
              runCmd := rc, buildCmd := req.buildCmd, env := env }
          ⟨some (.accepted id "cloning"), [s1, s2, s3, s4, s5],
            { s5 with processes := mapSet s5.processes id record,
                      nextHandle := h + 1,
                      spawned := s5.spawned ++ [(id, h)] }⟩

/-! ## GET /api/bots, POST /api/stop/:id, POST /api/restart/:id,
and the close callback -/

/-- One element of the GET /api/bots response (index.js lines 109-117). -/
structure BotSummary where
  id : String
  repoName : String
  status : String
  repoUrl : String
deriving DecidableEq

/-- GET /api/bots: map the entries of `processes` to summaries. -/
def listBots (s : SysState) : List BotSummary :=
  s.processes.map (fun p => ⟨p.1, p.2.repoName, p.2.status, p.2.repoUrl⟩)

/-- Synchronous responses of the stop and restart handlers. -/
inductive ApiResp
  | ok
  | notFound
deriving DecidableEq

/-- POST /api/stop/:id (index.js lines 119-129): when the record exists
and its `process` property is truthy (a stored ChildProcess object
always is), kill the process — a no-op on an already-exited child — set
status "stopped" and answer ok; otherwise answer 404 and touch nothing. -/
def stopOp (id : String) (s : SysState) : ApiResp × SysState :=
  match mapGet s.processes id with
  | none => (.notFound, s)
  | some botData =>
    if botData.process.isSome then
      (.ok, { s with processes := mapSet s.processes id { botData with status := "stopped" } })
    else (.notFound, s)

/-- POST /api/restart/:id (index.js lines 131-170): 404 when the record
is absent; otherwise kill the existing process if any (no record-store
effect), log the marker line, spawn a fresh child with the stored
command/path/env, attach the new handle, set status "running", register
the new close callback, and answer ok. The spawn of a stored (string)
command does not throw synchronously, so the 500 branch is unreachable. -/
def restartOp (id : String) (s : SysState) : ApiResp × SysState :=
  match mapGet s.processes id with
  | none => (.notFound, s)
  | some botData =>
    let s1 := logLine s id "--- RESTART INITIATED ---"
    let h := s1.nextHandle
    (.ok, { s1 with
              processes := mapSet s1.processes id
                { botData with process := some h, status := "running" },
              nextHandle := h + 1,
              spawned := s1.spawned ++ [(id, h)] })

/-- Rendering of the exit code in the exit log line: a child killed by
a signal reports
`code === null`, rendered "null". -/
def showExitCode : Option Int → String
  | none => "null"
  | some n => toString n

/-- The body of the `close` callback attached by `botProcess.on`,
identical in
the deploy handler (lines 96-101) and the restart handler (lines
159-164): log the exit line, then set status "stopped" whenever the id
is still in the map. The callback closure captures only `id` — it does
NOT check that its process is still the current handle of the record. -/
def closeHandler (id : String) (code : Option Int) (s : SysState) : SysState :=
  let s1 := logLine s id ("Process exited with code " ++ showExitCode code)
  match mapGet s1.processes id with
  | some botData =>
    { s1 with processes := mapSet s1.processes id { botData with status := "stopped" } }
  | none => s1

/-! ## The event system -/

/-- The events that mutate the server state: an inbound deploy command
run to completion of its asynchronous chain, a `close` notification for
a registered child process, and the stop and restart commands. -/
inductive Event
  | deploy (id : String) (req : DeployReq) (ambient : Env) (ext : DeployExt)
  | procClosed (id : String) (h : Nat) (code : Option Int)
  | stop (id : String)
  | restart (id : String)

/-- One step of the system. The deploy event carries the uuidv4
freshness guarantee: a fresh id never equals a stored one. A close
event can only fire for a `(id, handle)` pair on which a callback was
registered. -/
def step (e : Event) (s : SysState) : SysState :=
  match e with
  | .deploy id req ambient ext =>
    if mapGet s.processes id = none then (deployHandler id req ambient ext s).finalState
    else s
  | .procClosed id h code =>
    if (id, h) ∈ s.spawned then closeHandler id code s else s
  | .stop id => (stopOp id s).2
  | .restart id => (restartOp id s).2

/-- States the server can be in: everything generated from start-up by
the events above. -/
inductive Reachable : SysState → Prop
  | init : Reachable initState
  | step : ∀ e s, Reachable s → Reachable (step e s)

/-- Well-formedness of one stored record: its status string is
"running" or "stopped", and a process handle is attached. -/
def RecordWF (r : BotRecord) : Prop :=
  (r.status = "running" ∨ r.status = "stopped") ∧ r.process.isSome = true

/-- Store invariant: every entry ever present in `processes` is
well-formed. -/
def StoreWF (s : SysState) : Prop := ∀ p ∈ s.processes, RecordWF p.2

/-! ## Concrete example inputs and traces used by counterexamples and
witnesses -/

/-- A plain deploy request: repository, no build, a run command, an
empty environment map, no proxy. -/
def exDeployReq : DeployReq :=
  { repoUrl := some "https://h/r.git", buildCmd := none,
    runCmd := some "node index.js", envVars := some [], proxy := none }

/-- A deploy request whose `runCmd` is absent. -/
def exReqNoRun : DeployReq :=
  { repoUrl := some "https://h/r.git", buildCmd := none,
    runCmd := none, envVars := some [], proxy := none }

/-- External outcomes: clone succeeds, `Math.random()` draw 0. -/
def exExt : DeployExt := { cloneOk := true, cloneErrMsg := "", rand := 0 }

/-- External outcomes: clone fails with a git error message. -/
def exCloneFailExt : DeployExt :=
  { cloneOk := false, cloneErrMsg := "fatal: could not read from remote repository", rand := 0 }

/-- State after deploying `exDeployReq` as id "a" from start-up: the
record is running on handle 0. -/
def exRun : SysState := step (.deploy "a" exDeployReq [] exExt) initState

/-- The record stored by that deploy. -/
def exRecordRun : BotRecord :=
  { process := some 0, status := "running", repoUrl := "https://h/r.git",
    deployPath := "deployments/r_a", repoName := "r",
    runCmd := "node index.js", buildCmd := none, env := [("PORT", "10000")] }

/-- State `exRun` after the run process exits naturally (close of
handle 0):
status "stopped". -/
def exStopped : SysState := step (.procClosed "a" 0 (some 1)) exRun

/-- The stored record of `exStopped`. -/
def exRecordStopped : BotRecord := { exRecordRun with status := "stopped" }

/-- State `exStopped` after a restart command: status back to
"running" on
fresh handle 1. -/
def exReRun : SysState := step (.restart "a") exStopped

/-- The stored record of `exReRun`. -/
def exRecordReRun : BotRecord := { exRecordRun with process := some 1 }

/-- State `exRun` after a restart command that supersedes handle 0 with
handle 1 while the record stays "running". -/
def exRestarted : SysState := step (.restart "a") exRun

/-! ## Association-list lemmas -/

theorem mapGet_mapSet_self (m : ProcMap) (id : String) (r : BotRecord) :
    mapGet (mapSet m id r) id = some r := by
  induction m with
  | nil => simp [mapSet, mapGet]
  | cons p t ih =>
    obtain ⟨k, v⟩ := p
    by_cases h : k = id
    · simp [mapSet, mapGet, h]
    · simp [mapSet, mapGet, h, ih]

theorem mapGet_mapSet_ne (m : ProcMap) (id id2 : String) (r : BotRecord)
    (h : id2 ≠ id) : mapGet (mapSet m id r) id2 = mapGet m id2 := by
  have h2 : ¬ id = id2 := fun hh => h hh.symm
  induction m with
  | nil => simp [mapSet, mapGet, h2]
  | cons p t ih =>
    obtain ⟨k, v⟩ := p
    by_cases hk : k = id
    · subst hk
      simp [mapSet, mapGet, h2]
    · simp [mapSet, mapGet, hk, ih]

theorem mem_mapSet (m : ProcMap) (id : String) (r : BotRecord) :
    ∀ p ∈ mapSet m id r, p.2 = r ∨ p ∈ m := by
  induction m with
  | nil => simp [mapSet]
  | cons q t ih =>
    obtain ⟨k, v⟩ := q
    intro p hp
    by_cases hk : k = id
    · rw [mapSet, if_pos hk] at hp
      rcases List.mem_cons.mp hp with hp | hp
      · left; rw [hp]
      · right; exact List.mem_cons_of_mem _ hp
    · rw [mapSet, if_neg hk] at hp
      rcases List.mem_cons.mp hp with hp | hp
      · right; rw [hp]; exact List.mem_cons_self _ _
      · rcases ih p hp with h2 | h2
        · left; exact h2
        · right; exact List.mem_cons_of_mem _ h2

theorem mapGet_mem (m : ProcMap) (id : String) (r : BotRecord)
    (h : mapGet m id = some r) : (id, r) ∈ m := by
  induction m with
  | nil => simp [mapGet] at h
  | cons q t ih =>
    obtain ⟨k, v⟩ := q
    by_cases hk : k = id
    · subst hk
      rw [mapGet, if_pos rfl] at h
      rw [Option.some.injEq] at h
      rw [← h]
      exact List.mem_cons_self _ _
    · rw [mapGet, if_neg hk] at h
      exact List.mem_cons_of_mem _ (ih h)

theorem mapGet_none_keys (m : ProcMap) (id : String)
    (h : mapGet m id = none) : ∀ p ∈ m, p.1 ≠ id := by
  induction m with
  | nil => simp
  | cons q t ih =>
    obtain ⟨k, v⟩ := q
    by_cases hk : k = id
    · rw [mapGet, if_pos hk] at h
      exact absurd h (by simp)
    · rw [mapGet, if_neg hk] at h
      intro p hp
      rcases List.mem_cons.mp hp with hp | hp
      · rw [hp]; exact hk
      · exact ih h p hp

theorem envGet_envSet_self (e : Env) (k v : String) :
    envGet (envSet e k v) k = some v := by
  induction e with
  | nil => simp [envSet, envGet]
  | cons p t ih =>
    obtain ⟨k2, v2⟩ := p
    by_cases h : k2 = k
    · simp [envSet, envGet, h]
    · simp [envSet, envGet, h, ih]

theorem envGet_envSet_ne (e : Env) (k k2 v : String) (h : k2 ≠ k) :
    envGet (envSet e k v) k2 = envGet e k2 := by
  have h2 : ¬ k = k2 := fun hh => h hh.symm
  induction e with
  | nil => simp [envSet, envGet, h2]
  | cons p t ih =>
    obtain ⟨k3, v3⟩ := p
    by_cases hk : k3 = k
    · subst hk
      simp [envSet, envGet, h2]
    · simp [envSet, envGet, hk, ih]

theorem envGet_mem (e : Env) (k v : String) (h : envGet e k = some v) :
    (k, v) ∈ e := by
  induction e with
  | nil => simp [envGet] at h
  | cons p t ih =>
    obtain ⟨k2, v2⟩ := p
    by_cases hk : k2 = k
    · subst hk
      rw [envGet, if_pos rfl] at h
      rw [Option.some.injEq] at h
      rw [← h]
      exact List.mem_cons_self _ _
    · rw [envGet, if_neg hk] at h
      exact List.mem_cons_of_mem _ (ih h)

theorem envGet_envMerge_not_mem (ov : Env) (base : Env) (k : String)
    (h : k ∉ ov.map Prod.fst) : envGet (envMerge base ov) k = envGet base k := by
  induction ov generalizing base with
  | nil => rfl
  | cons p t ih =>
    obtain ⟨k2, v2⟩ := p
    simp only [List.map_cons, List.mem_cons] at h
    push_neg at h
    show envGet (envMerge (envSet base k2 v2) t) k = envGet base k
    exact (ih (envSet base k2 v2) h.2).trans (envGet_envSet_ne base k2 k v2 h.1)

theorem envGet_envMerge_mem (ov : Env) (base : Env) (k v : String)
    (hnd : (ov.map Prod.fst).Nodup) (h : (k, v) ∈ ov) :
    envGet (envMerge base ov) k = some v := by
  induction ov generalizing base with
  | nil => simp at h
  | cons p t ih =>
    obtain ⟨k2, v2⟩ := p
    simp only [List.map_cons, List.nodup_cons] at hnd
    rcases List.mem_cons.mp h with h | h
    · obtain ⟨hk, hv⟩ := Prod.ext_iff.mp h
      subst hk
      subst hv
      show envGet (envMerge (envSet base k v) t) k = some v
      exact (envGet_envMerge_not_mem t (envSet base k v) k hnd.1).trans
        (envGet_envSet_self base k v)
    · show envGet (envMerge (envSet base k2 v2) t) k = some v
      exact ih (envSet base k2 v2) hnd.2 h

/-! ## String-processing lemmas -/

theorem isPrefixOf_append_self (p b : List Char) : p.isPrefixOf (p ++ b) = true := by
  induction p with
  | nil => simp [List.isPrefixOf]
  | cons c t ih => simp [List.isPrefixOf, ih]

theorem replaceFirst_no_occ (pat l : List Char)
    (h : ∀ i, i ≤ l.length → pat.isPrefixOf (l.drop i) = false) :
    replaceFirst pat [] l = l := by
  induction l with
  | nil => rfl
  | cons c t ih =>
    have h0 : pat.isPrefixOf (c :: t) = false := h 0 (Nat.zero_le _)
    rw [replaceFirst, if_neg (by simp [h0])]
    rw [ih (fun i hi => by
      have := h (i + 1) (Nat.succ_le_succ hi)
      simpa using this)]

theorem replaceFirst_first_occ (pat a b : List Char)
    (hmin : ∀ i, i < a.length → pat.isPrefixOf ((a ++ pat ++ b).drop i) = false) :
    replaceFirst pat [] (a ++ pat ++ b) = a ++ b := by
  induction a with
  | nil =>
    simp only [List.nil_append]
    cases pat with
    | nil =>
      cases b with
      | nil => rfl
      | cons c t => simp [replaceFirst, List.isPrefixOf]
    | cons p pt =>
      rw [List.cons_append, replaceFirst,
        if_pos (by rw [← List.cons_append]; simp [isPrefixOf_append_self])]
      rw [← List.cons_append, List.nil_append, List.drop_left]
  | cons c a2 ih =>
    have h0 : pat.isPrefixOf (c :: (a2 ++ pat ++ b)) = false := by
      have := hmin 0 (by simp)
      simpa using this
    have h1 : ¬ (pat.isPrefixOf (c :: (a2 ++ pat ++ b)) = true) := by
      rw [h0]; simp
    show replaceFirst pat [] (c :: (a2 ++ pat ++ b)) = c :: (a2 ++ b)
    rw [replaceFirst, if_neg h1]
    rw [ih (fun i hi => by
      have := hmin (i + 1) (by simpa using Nat.succ_lt_succ hi)
      simpa using this)]

theorem charOfNat_toNat {n : Nat} (h : n < 55296) : (Char.ofNat n).toNat = n := by
  unfold Char.ofNat
  rw [dif_pos (Or.inl h)]
  rfl

/-! ## C7: sanitize output alphabet -/

/-- C7: for every `repoName` input string, every character of the
sanitized directory segment `sanitize repoName` is a lowercase ASCII
letter, an ASCII digit, or an underscore; in particular it is never a
slash, a dot or a space. -/
theorem sanitize_chars (name : String) (c : Char) (hc : c ∈ (sanitize name).data) :
    ((97 ≤ c.toNat ∧ c.toNat ≤ 122) ∨ (48 ≤ c.toNat ∧ c.toNat ≤ 57) ∨ c = '_') ∧
      c ≠ '/' ∧ c ≠ '.' ∧ c ≠ ' ' := by
  have hc2 : c ∈ name.data.map (fun c => asciiLower (replaceNonAlnum c)) := hc
  obtain ⟨c0, _, rfl⟩ := List.mem_map.mp hc2
  have main : (97 ≤ (asciiLower (replaceNonAlnum c0)).toNat ∧
        (asciiLower (replaceNonAlnum c0)).toNat ≤ 122) ∨
      (48 ≤ (asciiLower (replaceNonAlnum c0)).toNat ∧
        (asciiLower (replaceNonAlnum c0)).toNat ≤ 57) ∨
      asciiLower (replaceNonAlnum c0) = '_' := by
    by_cases h : isAlnumCI c0 = true
    · rw [replaceNonAlnum, if_pos h]
      rw [isAlnumCI] at h
      simp only [Bool.or_eq_true, Bool.and_eq_true, decide_eq_true_eq] at h
      rcases h with (h | h) | h
      · rw [asciiLower, if_neg (by simp only [Bool.and_eq_true, decide_eq_true_eq]; omega)]
        exact Or.inl h
      · rw [asciiLower, if_pos (by simp only [Bool.and_eq_true, decide_eq_true_eq]; omega)]
        rw [charOfNat_toNat (by omega)]
        exact Or.inl (by omega)
      · rw [asciiLower, if_neg (by simp only [Bool.and_eq_true, decide_eq_true_eq]; omega)]
        exact Or.inr (Or.inl h)
    · rw [replaceNonAlnum, if_neg h]
      exact Or.inr (Or.inr (by decide))
  refine ⟨main, ?_, ?_, ?_⟩
  · intro he
    rw [he] at main
    exact absurd main (by decide)
  · intro he
    rw [he] at main
    exact absurd main (by decide)
  · intro he
    rw [he] at main
    exact absurd main (by decide)

/-- C7 witness: the adversarial repo name from the spec, at the
underscore produced from its first character. -/
theorem sanitize_chars_witness :
    ('_' ∈ (sanitize "../../evil repo!").data) ∧
      ((97 ≤ '_'.toNat ∧ '_'.toNat ≤ 122) ∨ (48 ≤ '_'.toNat ∧ '_'.toNat ≤ 57) ∨ '_' = '_') ∧
      '_' ≠ '/' ∧ '_' ≠ '.' ∧ '_' ≠ ' ' :=
  ⟨by decide, sanitize_chars "../../evil repo!" '_' (by decide)⟩

/-! ## C9: derived repoName -/

/-- C9 counterexample: the last path segment "a.gitx" does not end with
".git", yet `repoName` is not left unchanged — the code removes the
FIRST occurrence of ".git" anywhere, producing "ax". -/
theorem repoName_not_suffix_strip :
    jsLastSegment "https://h/a.gitx".data = "a.gitx".data ∧
      List.isSuffixOf ".git".data "a.gitx".data = false ∧
      repoNameOf "https://h/a.gitx" = "ax" ∧
      repoNameOf "https://h/a.gitx" ≠ "a.gitx" := by
  refine ⟨by decide, by decide, by decide, by decide⟩

/-- C9 amended: `repoName` is the last path segment of `repoUrl` with
the FIRST occurrence of ".git" (anywhere in the segment, not only a
trailing suffix) removed; a segment in which ".git" does not occur at
all is left unchanged. -/
theorem repoName_first_occurrence (url : String) :
    ((∀ i, i ≤ (jsLastSegment url.data).length →
        ".git".data.isPrefixOf ((jsLastSegment url.data).drop i) = false) →
      repoNameOf url = ⟨jsLastSegment url.data⟩) ∧
    (∀ a b, jsLastSegment url.data = a ++ ".git".data ++ b →
      (∀ i, i < a.length →
        ".git".data.isPrefixOf ((jsLastSegment url.data).drop i) = false) →
      repoNameOf url = ⟨a ++ b⟩) := by
  constructor
  · intro h
    show (⟨replaceFirst ".git".data [] (jsLastSegment url.data)⟩ : String) = _
    rw [replaceFirst_no_occ _ _ h]
  · intro a b he hmin
    show (⟨replaceFirst ".git".data [] (jsLastSegment url.data)⟩ : String) = _
    rw [he]
    rw [replaceFirst_first_occ _ a b (fun i hi => by rw [← he]; exact hmin i hi)]

/-- C9 witness: for url "h/x.gity" the segment is "x.gity"; its first
(and only) ".git" occurrence sits after the 1-character prefix "x", and
the code yields "xy". -/
theorem repoName_first_occurrence_witness :
    (jsLastSegment "h/x.gity".data = ['x'] ++ ".git".data ++ ['y']) ∧
      (∀ i, i < ['x'].length →
        ".git".data.isPrefixOf ((jsLastSegment "h/x.gity".data).drop i) = false) ∧
      repoNameOf "h/x.gity" = ⟨['x'] ++ ['y']⟩ :=
  ⟨by decide, by decide,
    (repoName_first_occurrence "h/x.gity").2 ['x'] ['y'] (by decide) (by decide)⟩

/-! ## C6: PORT injection -/

/-- The injected port is an integer in `[10000, 65535)` for every
possible `Math.random()` draw. -/
theorem randomPort_range (k : Nat) (hk : k < 2 ^ 53) :
    10000 ≤ randomPort k ∧ randomPort k < 65535 := by
  constructor
  · exact Nat.le_add_left 10000 _
  · have h1 : k * (65535 - 10000) / 2 ^ 53 < 55535 := by
      rw [Nat.div_lt_iff_lt_mul (by norm_num)]
      calc k * (65535 - 10000) = k * 55535 := by norm_num
        _ < 2 ^ 53 * 55535 := by
            exact (Nat.mul_lt_mul_right (by norm_num)).mpr hk
        _ = 55535 * 2 ^ 53 := Nat.mul_comm _ _
    rw [randomPort]
    omega

/-- C6 counterexample: a supplied `PORT` entry whose value is the empty
string is falsy for `!envVars.PORT`, so the code overrides it with the
injected random port instead of preserving it. -/
theorem empty_port_overridden :
    envGet [("PORT", "")] "PORT" = some "" ∧
      envGet (computeBotEnv [] [("PORT", "")] none 0) "PORT" = some "10000" ∧
      envGet (computeBotEnv [] [("PORT", "")] none 0) "PORT" ≠ some "" := by
  refine ⟨by decide, by decide, by decide⟩

/-- C6 amended: if the supplied `envVars` has no truthy `PORT` entry
(no entry at all, or an empty-string value), the merged child
environment binds `PORT` to the injected random port, an integer in
`[10000, 65535)`; if a `PORT` entry with a non-empty value is supplied,
that value appears in the merged environment unchanged. -/
theorem port_injection (ambient envVars : Env) (proxy : Option String) (k : Nat)
    (hk : k < 2 ^ 53) :
    (jsTruthy (envGet envVars "PORT") = false →
      envGet (computeBotEnv ambient envVars proxy k) "PORT" =
          some (toString (randomPort k)) ∧
        10000 ≤ randomPort k ∧ randomPort k < 65535) ∧
    (∀ v, (envVars.map Prod.fst).Nodup → envGet envVars "PORT" = some v → v ≠ "" →
      envGet (computeBotEnv ambient envVars proxy k) "PORT" = some v) := by
  constructor
  · intro hf
    refine ⟨?_, randomPort_range k hk⟩
    rw [computeBotEnv.eq_def]
    simp only [hf, Bool.false_eq_true, if_false]
    have base := envGet_envSet_self (envMerge ambient envVars) "PORT"
      (toString (randomPort k))
    cases hp : proxy with
    | none => exact base
    | some p =>
      by_cases hpe : p = ""
      · simp only [hpe, if_pos rfl]
        exact base
      · simp only [if_neg hpe]
        rw [envGet_envSet_ne _ "SOCKS_PROXY" "PORT" p (by decide)]
        exact base
  · intro v hnd hv hne
    have ht : jsTruthy (envGet envVars "PORT") = true := by
      rw [hv, jsTruthy]
      simp [hne]
    rw [computeBotEnv.eq_def]
    simp only [ht, if_true]
    have base : envGet (envMerge ambient envVars) "PORT" = some v :=
      envGet_envMerge_mem envVars ambient "PORT" v hnd (envGet_mem _ _ _ hv)
    cases hp : proxy with
    | none => exact base
    | some p =>
      by_cases hpe : p = ""
      · simp only [hpe, if_pos rfl]
        exact base
      · simp only [if_neg hpe]
        rw [envGet_envSet_ne _ "SOCKS_PROXY" "PORT" p (by decide)]
        exact base

/-- C6 witness: a supplied non-empty PORT "8080" is preserved under an
ambient environment and a proxy; with no PORT supplied, the injected
port for draw 0 is 10000 ∈ [10000, 65535). -/
theorem port_injection_witness :
    (0 < 2 ^ 53) ∧
      envGet (computeBotEnv [("PATH", "/bin")] [("PORT", "8080")]
        (some "u:p@h:1") 0) "PORT" = some "8080" ∧
      (jsTruthy (envGet ([] : Env) "PORT") = false →
        envGet (computeBotEnv [("PATH", "/bin")] [] (some "u:p@h:1") 0) "PORT" =
            some (toString (randomPort 0)) ∧
          10000 ≤ randomPort 0 ∧ randomPort 0 < 65535) :=
  ⟨by decide,
    (port_injection [("PATH", "/bin")] [("PORT", "8080")] (some "u:p@h:1") 0
      (by decide)).2 "8080" (by decide) (by decide) (by decide),
    (port_injection [("PATH", "/bin")] [] (some "u:p@h:1") 0 (by decide)).1⟩

/-! ## Deploy-handler structure lemmas -/

@[simp] theorem logLine_processes (s : SysState) (id text : String) :
    (logLine s id text).processes = s.processes := rfl

@[simp] theorem logLine_nextHandle (s : SysState) (id text : String) :
    (logLine s id text).nextHandle = s.nextHandle := rfl

@[simp] theorem logLine_spawned (s : SysState) (id text : String) :
    (logLine s id text).spawned = s.spawned := rfl

@[simp] theorem logLine_log (s : SysState) (id text : String) :
    (logLine s id text).log = s.log ++ [(id, text)] := rfl

@[simp] theorem ite_processes (c : Prop) [Decidable c] (a b : SysState) :
    (if c then a else b).processes = if c then a.processes else b.processes :=
  apply_ite _ _ _ _

@[simp] theorem ite_nextHandle (c : Prop) [Decidable c] (a b : SysState) :
    (if c then a else b).nextHandle = if c then a.nextHandle else b.nextHandle :=
  apply_ite _ _ _ _

@[simp] theorem ite_spawned (c : Prop) [Decidable c] (a b : SysState) :
    (if c then a else b).spawned = if c then a.spawned else b.spawned :=
  apply_ite _ _ _ _

/-- Either the deploy chain stops before the run stage and the process
map is untouched, or it inserts exactly one record for the new id, in
status "running" with the fresh handle attached. -/
theorem deployHandler_processes (id : String) (req : DeployReq) (ambient : Env)
    (ext : DeployExt) (s : SysState) :
    (deployHandler id req ambient ext s).finalState.processes = s.processes ∨
    ∃ r : BotRecord, r.status = "running" ∧ r.process = some s.nextHandle ∧
      (deployHandler id req ambient ext s).finalState.processes = mapSet s.processes id r := by
  obtain ⟨ru, bc, rc, ev, px⟩ := req
  cases ru with
  | none => left; rfl
  | some url =>
    cases hc : ext.cloneOk with
    | false => left; simp [deployHandler, hc]
    | true =>
      cases ev with
      | none => left; simp [deployHandler, hc]
      | some evv =>
        cases rc with
        | none =>
          left
          cases px with
          | none => simp [deployHandler, hc]
          | some p => simp [deployHandler, hc]
        | some rcv =>
          right
          refine ⟨⟨some s.nextHandle, "running", url,
            "deployments/" ++ sanitize (repoNameOf url) ++ "_" ++ id,
            repoNameOf url, rcv, bc, computeBotEnv ambient evv px ext.rand⟩,
            rfl, rfl, ?_⟩
          cases px with
          | none => simp [deployHandler, hc]
          | some p => simp [deployHandler, hc]

/-- Every intermediate state of the deploy chain before the record
insertion leaves the process map exactly as it was. -/
theorem deployHandler_phases_processes (id : String) (req : DeployReq) (ambient : Env)
    (ext : DeployExt) (s : SysState) :
    ∀ t ∈ (deployHandler id req ambient ext s).phases, t.processes = s.processes := by
  obtain ⟨ru, bc, rc, ev, px⟩ := req
  intro t ht
  cases ru with
  | none => simp [deployHandler] at ht
  | some url =>
    cases hc : ext.cloneOk with
    | false =>
      simp only [deployHandler, hc] at ht
      fin_cases ht <;> simp
    | true =>
      cases ev with
      | none =>
        simp only [deployHandler, hc] at ht
        fin_cases ht <;> simp
      | some evv =>
        cases rc with
        | none =>
          cases px with
          | none =>
            simp only [deployHandler, hc] at ht
            fin_cases ht <;> simp
          | some p =>
            simp only [deployHandler, hc] at ht
            fin_cases ht <;> simp
        | some rcv =>
          cases px with
          | none =>
            simp only [deployHandler, hc] at ht
            fin_cases ht <;> simp
          | some p =>
            simp only [deployHandler, hc] at ht
            fin_cases ht <;> simp

/-! ## C3: there is no validation in the deploy handler -/

/-- C3 counterexample: a deploy request with `runCmd` absent (and
`repoUrl` present) is answered with the ordinary 202 (id, cloning)
acceptance — not with any error — and no record is ever created. -/
theorem deploy_missing_runCmd_still_accepted :
    (deployHandler "a" exReqNoRun [] exExt initState).response =
        some (DeployResp.accepted "a" "cloning") ∧
      (deployHandler "a" exReqNoRun [] exExt initState).finalState.processes = [] := by
  refine ⟨by decide, by decide⟩

/-- C3 amended: the deploy handler performs no validation. When
`repoUrl` is absent it throws synchronously before responding (no
response, no record, no log). When `repoUrl` is present it always
responds 202 (id, cloning), whatever the rest of the request; when
`runCmd` is absent the asynchronous chain later dies without ever
creating a record. No ValidationError response exists. -/
theorem deploy_no_validation (id : String) (req : DeployReq) (ambient : Env)
    (ext : DeployExt) (s : SysState) :
    (req.repoUrl = none → deployHandler id req ambient ext s = ⟨none, [], s⟩) ∧
    (req.repoUrl ≠ none →
      (deployHandler id req ambient ext s).response =
        some (DeployResp.accepted id "cloning")) ∧
    (req.runCmd = none →
      (deployHandler id req ambient ext s).finalState.processes = s.processes) := by
  obtain ⟨ru, bc, rc, ev, px⟩ := req
  refine ⟨?_, ?_, ?_⟩
  · intro h
    cases ru with
    | none => rfl
    | some url => exact absurd h (by simp)
  · intro h
    cases ru with
    | none => exact absurd rfl h
    | some url =>
      cases hc : ext.cloneOk with
      | false => simp [deployHandler, hc]
      | true =>
        cases ev with
        | none => simp [deployHandler, hc]
        | some evv =>
          cases rc with
          | none => simp [deployHandler, hc]
          | some rcv => simp [deployHandler, hc]
  · intro h
    cases ru with
    | none => rfl
    | some url =>
      subst h
      cases hc : ext.cloneOk with
      | false => simp [deployHandler, hc]
      | true =>
        cases ev with
        | none => simp [deployHandler, hc]
        | some evv =>
          cases px with
          | none => simp [deployHandler, hc]
          | some p => simp [deployHandler, hc]

/-- C3 witness: with `repoUrl` absent the handler throws before
responding and the state is untouched; with `runCmd` absent no record
is created. -/
theorem deploy_no_validation_witness :
    ((⟨none, none, some "node x", some [], none⟩ : DeployReq).repoUrl = none →
      deployHandler "w" ⟨none, none, some "node x", some [], none⟩ [] exExt initState =
        ⟨none, [], initState⟩) ∧
      ((⟨none, none, some "node x", some [], none⟩ : DeployReq).repoUrl ≠ none →
        (deployHandler "w" ⟨none, none, some "node x", some [], none⟩ [] exExt
          initState).response = some (DeployResp.accepted "w" "cloning")) ∧
      ((⟨none, none, some "node x", some [], none⟩ : DeployReq).runCmd = none →
        (deployHandler "w" ⟨none, none, some "node x", some [], none⟩ [] exExt
          initState).finalState.processes = initState.processes) :=
  deploy_no_validation "w" ⟨none, none, some "node x", some [], none⟩ [] exExt initState

/-! ## C4: clone failure -/

/-- C4 counterexample: a deploy whose clone fails emits the error log
line but creates no record at all — there is no record to transition to
"failed", and the store stays empty. -/
theorem clone_failure_no_failed_record :
    mapGet (deployHandler "a" exDeployReq [] exCloneFailExt initState).finalState.processes
        "a" = none ∧
      (deployHandler "a" exDeployReq [] exCloneFailExt initState).finalState.log =
        [("a", "Cloning https://h/r.git..."),
          ("a", "Error: fatal: could not read from remote repository")] := by
  refine ⟨by decide, by decide⟩

/-- C4 amended: on clone failure the handler publishes the cloning line
and then a log line carrying the error message, performs no retry (the
log shows a single clone attempt and the chain ends), and leaves the
process map untouched — in particular no record of the deployment
exists, so nothing is transitioned to a "failed" state. -/
theorem clone_failure_behavior (id url : String) (req : DeployReq) (ambient : Env)
    (ext : DeployExt) (s : SysState) (hu : req.repoUrl = some url)
    (hc : ext.cloneOk = false) :
    (deployHandler id req ambient ext s).finalState.log =
        s.log ++ [(id, "Cloning " ++ url ++ "..."), (id, "Error: " ++ ext.cloneErrMsg)] ∧
      (deployHandler id req ambient ext s).finalState.processes = s.processes := by
  obtain ⟨ru, bc, rc, ev, px⟩ := req
  simp only at hu
  subst hu
  constructor
  · simp [deployHandler, hc]
  · simp [deployHandler, hc]

/-- C4 witness: the amended statement at the concrete failing deploy. -/
theorem clone_failure_behavior_witness :
    exDeployReq.repoUrl = some "https://h/r.git" ∧ exCloneFailExt.cloneOk = false ∧
      ((deployHandler "a" exDeployReq [] exCloneFailExt initState).finalState.log =
          initState.log ++ [("a", "Cloning https://h/r.git..."),
            ("a", "Error: " ++ exCloneFailExt.cloneErrMsg)] ∧
        (deployHandler "a" exDeployReq [] exCloneFailExt initState).finalState.processes =
          initState.processes) :=
  ⟨by decide, by decide,
    clone_failure_behavior "a" "https://h/r.git" exDeployReq [] exCloneFailExt initState
      (by decide) (by decide)⟩

/-! ## C5: the record is absent until the run stage -/

/-- C5: while the deploy chain is between its 202 response and the run
spawn — every intermediate suspension state — the fresh id is absent
from the store: lookup misses, the bot listing omits it, and stop and
restart on it answer 404 without mutating anything; and when the chain
does insert the record, it inserts it directly in status "running"
(never "cloning" or "building"). -/
theorem record_absent_until_run (id : String) (req : DeployReq) (ambient : Env)
    (ext : DeployExt) (s : SysState) (hfresh : mapGet s.processes id = none) :
    (∀ t ∈ (deployHandler id req ambient ext s).phases,
        mapGet t.processes id = none ∧
        (∀ b ∈ listBots t, b.id ≠ id) ∧
        stopOp id t = (ApiResp.notFound, t) ∧
        restartOp id t = (ApiResp.notFound, t)) ∧
    (∀ r, mapGet (deployHandler id req ambient ext s).finalState.processes id = some r →
        r.status = "running") := by
  constructor
  · intro t ht
    have hp : t.processes = s.processes :=
      deployHandler_phases_processes id req ambient ext s t ht
    have hget : mapGet t.processes id = none := by rw [hp]; exact hfresh
    refine ⟨hget, ?_, ?_, ?_⟩
    · intro b hb
      obtain ⟨q, hq, rfl⟩ := List.mem_map.mp hb
      exact mapGet_none_keys t.processes id hget q hq
    · simp [stopOp, hget]
    · simp [restartOp, hget]
  · intro r hr
    rcases deployHandler_processes id req ambient ext s with h | ⟨r2, hst, _, h⟩
    · rw [h, hfresh] at hr
      cases hr
    · rw [h, mapGet_mapSet_self] at hr
      rw [Option.some.injEq] at hr
      rw [← hr]
      exact hst

/-- C5 witness: the full statement at a concrete successful deploy of
id "a" into the empty store. -/
theorem record_absent_until_run_witness :
    mapGet initState.processes "a" = none ∧
      ((∀ t ∈ (deployHandler "a" exDeployReq [] exExt initState).phases,
          mapGet t.processes "a" = none ∧
          (∀ b ∈ listBots t, b.id ≠ "a") ∧
          stopOp "a" t = (ApiResp.notFound, t) ∧
          restartOp "a" t = (ApiResp.notFound, t)) ∧
        (∀ r, mapGet (deployHandler "a" exDeployReq [] exExt
            initState).finalState.processes "a" = some r →
          r.status = "running")) :=
  ⟨by decide, record_absent_until_run "a" exDeployReq [] exExt initState (by decide)⟩

/-! ## Per-operation process-map lemmas -/

/-- stop leaves the map unchanged, or rewrites the target record to
status "stopped" keeping every other field. -/
theorem stopOp_processes (id : String) (s : SysState) :
    (stopOp id s).2.processes = s.processes ∨
    ∃ bd, mapGet s.processes id = some bd ∧ bd.process.isSome = true ∧
      (stopOp id s).2.processes = mapSet s.processes id { bd with status := "stopped" } := by
  cases hm : mapGet s.processes id with
  | none => left; simp [stopOp, hm]
  | some bd =>
    by_cases hpr : bd.process.isSome = true
    · right
      exact ⟨bd, rfl, hpr, by simp [stopOp, hm, hpr]⟩
    · left; simp [stopOp, hm, hpr]

/-- restart leaves the map unchanged (unknown id), or rewrites the
target record to status "running" with the fresh handle attached. -/
theorem restartOp_processes (id : String) (s : SysState) :
    (restartOp id s).2.processes = s.processes ∨
    ∃ bd, mapGet s.processes id = some bd ∧
      (restartOp id s).2.processes =
        mapSet s.processes id { bd with process := some s.nextHandle, status := "running" } := by
  cases hm : mapGet s.processes id with
  | none => left; simp [restartOp, hm]
  | some bd =>
    right
    exact ⟨bd, rfl, by simp [restartOp, hm]⟩

/-- the close callback leaves the map unchanged (id evicted — never
happens, the code deletes nothing) or rewrites the target record to
status "stopped". -/
theorem closeHandler_processes (id : String) (code : Option Int) (s : SysState) :
    (closeHandler id code s).processes = s.processes ∨
    ∃ bd, mapGet s.processes id = some bd ∧
      (closeHandler id code s).processes = mapSet s.processes id { bd with status := "stopped" } := by
  cases hm : mapGet s.processes id with
  | none => left; simp [closeHandler, hm]
  | some bd =>
    right
    exact ⟨bd, rfl, by simp [closeHandler, hm]⟩

/-! ## The store invariant -/

/-- Every reachable server state is well-formed: each stored record has
status "running" or "stopped" and a process handle attached. -/
theorem reachable_storeWF (s : SysState) (hs : Reachable s) : StoreWF s := by
  induction hs with
  | init => intro p hp; simp [initState] at hp
  | step e s2 _ ih =>
    cases e with
    | deploy id req ambient ext =>
      show StoreWF (step (.deploy id req ambient ext) s2)
      rw [step]
      by_cases hg : mapGet s2.processes id = none
      · rw [if_pos hg]
        rcases deployHandler_processes id req ambient ext s2 with h | ⟨r, hst, hpr, h⟩
        · intro p hp
          rw [h] at hp
          exact ih p hp
        · intro p hp
          rw [h] at hp
          rcases mem_mapSet s2.processes id r p hp with h2 | h2
          · rw [h2]
            exact ⟨Or.inl hst, by rw [hpr]; rfl⟩
          · exact ih p h2
      · rw [if_neg hg]
        exact ih
    | procClosed id h code =>
      show StoreWF (step (.procClosed id h code) s2)
      rw [step]
      by_cases hg : (id, h) ∈ s2.spawned
      · rw [if_pos hg]
        rcases closeHandler_processes id code s2 with h2 | ⟨bd, hm, h2⟩
        · intro p hp
          rw [h2] at hp
          exact ih p hp
        · intro p hp
          rw [h2] at hp
          rcases mem_mapSet s2.processes id { bd with status := "stopped" } p hp with h3 | h3
          · rw [h3]
            have hbd := ih _ (mapGet_mem _ _ _ hm)
            exact ⟨Or.inr rfl, hbd.2⟩
          · exact ih p h3
      · rw [if_neg hg]
        exact ih
    | stop id =>
      show StoreWF (step (.stop id) s2)
      rw [step]
      rcases stopOp_processes id s2 with h2 | ⟨bd, hm, _, h2⟩
      · intro p hp
        rw [h2] at hp
        exact ih p hp
      · intro p hp
        rw [h2] at hp
        rcases mem_mapSet s2.processes id { bd with status := "stopped" } p hp with h3 | h3
        · rw [h3]
          have hbd := ih _ (mapGet_mem _ _ _ hm)
          exact ⟨Or.inr rfl, hbd.2⟩
        · exact ih p h3
    | restart id =>
      show StoreWF (step (.restart id) s2)
      rw [step]
      rcases restartOp_processes id s2 with h2 | ⟨bd, hm, h2⟩
      · intro p hp
        rw [h2] at hp
        exact ih p hp
      · intro p hp
        rw [h2] at hp
        rcases mem_mapSet s2.processes id
            { bd with process := some s2.nextHandle, status := "running" } p hp with h3 | h3
        · rw [h3]
          exact ⟨Or.inl rfl, rfl⟩
        · exact ih p h3

/-! ## C10: stored statuses -/

/-- C10: every record ever present in the store has status "running" or
"stopped"; "cloning", "building" and "failed" are never stored and so
never observable through the bot listing. -/
theorem store_statuses (s : SysState) (hs : Reachable s) :
    (∀ p ∈ s.processes, p.2.status = "running" ∨ p.2.status = "stopped") ∧
    (∀ p ∈ s.processes,
      p.2.status ≠ "cloning" ∧ p.2.status ≠ "building" ∧ p.2.status ≠ "failed") ∧
    (∀ b ∈ listBots s, b.status = "running" ∨ b.status = "stopped") := by
  have h := reachable_storeWF s hs
  refine ⟨fun p hp => (h p hp).1, fun p hp => ?_, fun b hb => ?_⟩
  · rcases (h p hp).1 with h2 | h2 <;> rw [h2] <;>
      exact ⟨by decide, by decide, by decide⟩
  · obtain ⟨q, hq, rfl⟩ := List.mem_map.mp hb
    exact (h q hq).1

/-- C10 witness: the statement at the concrete reachable state holding
one running record. -/
theorem store_statuses_witness :
    (∀ p ∈ exRun.processes, p.2.status = "running" ∨ p.2.status = "stopped") ∧
      (∀ p ∈ exRun.processes,
        p.2.status ≠ "cloning" ∧ p.2.status ≠ "building" ∧ p.2.status ≠ "failed") ∧
      (∀ b ∈ listBots exRun, b.status = "running" ∨ b.status = "stopped") :=
  store_statuses exRun (Reachable.step _ _ Reachable.init)

/-! ## C8: stop semantics -/

/-- C8: when the id is stored, stop answers ok — regardless of whether
the recorded process is still alive, which the handler never consults;
killing an exited child is a no-op — and rewrites the record to status
"stopped"; when the id is unknown, stop answers 404 and returns the
state unchanged (no record, log or registration is touched). -/
theorem stop_semantics (s : SysState) (id : String) (hs : Reachable s) :
    (∀ r, mapGet s.processes id = some r →
      (stopOp id s).1 = ApiResp.ok ∧
        mapGet (stopOp id s).2.processes id = some { r with status := "stopped" }) ∧
    (mapGet s.processes id = none → stopOp id s = (ApiResp.notFound, s)) := by
  constructor
  · intro r hm
    have hpr : r.process.isSome = true :=
      (reachable_storeWF s hs _ (mapGet_mem _ _ _ hm)).2
    constructor
    · simp [stopOp, hm, hpr]
    · simp [stopOp, hm, hpr, mapGet_mapSet_self]
  · intro hm
    simp [stopOp, hm]

/-- C8 witness: in the reachable state whose only record belongs to an
already-exited process ("a", status "stopped"), stop on "a" still
answers ok, and stop on the unknown id "b" answers 404 leaving the
state untouched. -/
theorem stop_semantics_witness :
    ((stopOp "a" exStopped).1 = ApiResp.ok ∧
        mapGet (stopOp "a" exStopped).2.processes "a" =
          some { exRecordStopped with status := "stopped" }) ∧
      stopOp "b" exStopped = (ApiResp.notFound, exStopped) :=
  ⟨(stop_semantics exStopped "a"
      (Reachable.step _ _ (Reachable.step _ _ Reachable.init))).1
      exRecordStopped (by decide),
    (stop_semantics exStopped "b"
      (Reachable.step _ _ (Reachable.step _ _ Reachable.init))).2 (by decide)⟩

/-! ## C2: observed state transitions -/

/-- C2 counterexample: after a deploy whose process exits (record
observed "stopped"), a restart command succeeds and the record is next
observed "running" — the transition stopped→running, which the claim
says never occurs. -/
theorem stopped_to_running_occurs :
    (mapGet exStopped.processes "a").map BotRecord.status = some "stopped" ∧
      (mapGet exReRun.processes "a").map BotRecord.status = some "running" ∧
      (restartOp "a" exStopped).1 = ApiResp.ok := by
  refine ⟨by decide, by decide, by decide⟩

/-- C2 amended: stored statuses are only ever "running" and "stopped",
so the consecutive observed states of a record (before and after any
single event) form a pair among running→running, running→stopped,
stopped→running and stopped→stopped; the genuine upgrade
stopped→running does occur, and only a restart command causes it
(cloning/building/failed states never appear at all). -/
theorem observed_transitions (e : Event) (s : SysState) (hs : Reachable s)
    (id : String) (r r2 : BotRecord)
    (hb : mapGet s.processes id = some r)
    (ha : mapGet (step e s).processes id = some r2) :
    ((r.status, r2.status) ∈
      [("running", "running"), ("running", "stopped"),
        ("stopped", "running"), ("stopped", "stopped")]) ∧
    (r.status = "stopped" → r2.status = "running" → e = Event.restart id) := by
  have conflict : ∀ x y : BotRecord, some x = some y →
      x.status = "stopped" → y.status = "running" → False := by
    intro x y hxy hx hy
    rw [Option.some.injEq] at hxy
    rw [← hxy, hx] at hy
    exact absurd hy (by decide)
  have conflict2 : ∀ x y : BotRecord, some x = some y →
      x.status = "running" → y.status = "stopped" → False := by
    intro x y hxy hx hy
    rw [Option.some.injEq] at hxy
    rw [← hxy, hx] at hy
    exact absurd hy (by decide)
  constructor
  · have h1 := (reachable_storeWF s hs _ (mapGet_mem _ _ _ hb)).1
    have h2 := (reachable_storeWF (step e s) (Reachable.step e s hs) _
      (mapGet_mem _ _ _ ha)).1
    rcases h1 with h1 | h1 <;> rcases h2 with h2 | h2 <;> rw [h1, h2] <;> decide
  · intro hrs hr2
    cases e with
    | deploy id2 req ambient ext =>
      exfalso
      rw [step] at ha
      by_cases hg : mapGet s.processes id2 = none
      · rw [if_pos hg] at ha
        have hne : id ≠ id2 := by
          intro h
          rw [h, hg] at hb
          cases hb
        rcases deployHandler_processes id2 req ambient ext s with h | ⟨r3, _, _, h⟩
        · rw [h, hb] at ha
          exact conflict r r2 ha hrs hr2
        · rw [h, mapGet_mapSet_ne _ _ _ _ hne, hb] at ha
          exact conflict r r2 ha hrs hr2
      · rw [if_neg hg, hb] at ha
        exact conflict r r2 ha hrs hr2
    | procClosed id2 h code =>
      exfalso
      rw [step] at ha
      by_cases hg : (id2, h) ∈ s.spawned
      · rw [if_pos hg] at ha
        rcases closeHandler_processes id2 code s with h2 | ⟨bd, _, h2⟩
        · rw [h2, hb] at ha
          exact conflict r r2 ha hrs hr2
        · rw [h2] at ha
          by_cases hid : id = id2
          · subst hid
            rw [mapGet_mapSet_self] at ha
            exact conflict { bd with status := "stopped" } r2 ha rfl hr2
          · rw [mapGet_mapSet_ne _ _ _ _ hid, hb] at ha
            exact conflict r r2 ha hrs hr2
      · rw [if_neg hg, hb] at ha
        exact conflict r r2 ha hrs hr2
    | stop id2 =>
      exfalso
      rw [step] at ha
      rcases stopOp_processes id2 s with h2 | ⟨bd, _, _, h2⟩
      · rw [h2, hb] at ha
        exact conflict r r2 ha hrs hr2
      · rw [h2] at ha
        by_cases hid : id = id2
        · subst hid
          rw [mapGet_mapSet_self] at ha
          exact conflict { bd with status := "stopped" } r2 ha rfl hr2
        · rw [mapGet_mapSet_ne _ _ _ _ hid, hb] at ha
          exact conflict r r2 ha hrs hr2
    | restart id2 =>
      rw [step] at ha
      rcases restartOp_processes id2 s with h2 | ⟨bd, hm, h2⟩
      · exfalso
        rw [h2, hb] at ha
        exact conflict r r2 ha hrs hr2
      · by_cases hid : id = id2
        · rw [hid]
        · exfalso
          rw [h2, mapGet_mapSet_ne _ _ _ _ hid, hb] at ha
          exact conflict r r2 ha hrs hr2

/-- C2 witness: the amended statement at the concrete stopped→running
restart. -/
theorem observed_transitions_witness :
    ((("stopped", "running") ∈
        ([("running", "running"), ("running", "stopped"),
          ("stopped", "running"), ("stopped", "stopped")] : List (String × String))) ∧
      (exRecordStopped.status = "stopped" → exRecordReRun.status = "running" →
        Event.restart "a" = Event.restart "a")) := by
  have h := observed_transitions (Event.restart "a") exStopped
    (Reachable.step _ _ (Reachable.step _ _ Reachable.init)) "a"
    exRecordStopped exRecordReRun (by decide) (by decide)
  exact ⟨h.1, h.2⟩

/-! ## C1: a stale close event downgrades a restarted deployment -/

/-- C1 (bug evidence): deploy "a", then restart it successfully — the
record is "running" on the fresh handle 1 while the killed old process
(handle 0) still has a registered close callback — and let that old
close event fire: the record drops to "stopped" although its current
process is alive. The callback guards only on `processes.has(id)`,
never on handle currency, so the claimed invariant fails on the code. -/
theorem stale_close_downgrades_after_restart :
    (mapGet exRestarted.processes "a").map BotRecord.status = some "running" ∧
      ("a", 0) ∈ exRestarted.spawned ∧
      (mapGet (step (.procClosed "a" 0 none) exRestarted).processes "a").map
          BotRecord.status = some "stopped" := by
  refine ⟨by decide, by decide, by decide⟩

end BotDeployer
